import Mathlib

/-
Verification development for the RustyGw2 overlay core:
the shared-memory/UDP telemetry bridge (src/Overlay/src/gw2link.rs),
the marker-category / POI data model with attribute inheritance
(src/Overlay/src/gw2poi.rs, src/Overlay/src/overlay_data.rs),
and the trail track loader / ribbon mesh generation (src/Overlay/src/trail.rs).

Modelling conventions:
* Machine integers are Nat (byte values 0..255, u16, u32); wrap-around is
  written explicitly with % 2^32 where the source can overflow.
* f32 values are modelled by the type F := Option Rat: `some q` is a finite
  float whose exact value is q (exact arithmetic, no rounding/overflow), and
  `none` is a non-finite value (NaN and infinities conflated).  The theorems
  proved here only depend on structural properties (counts, field copies,
  NaN propagation through arithmetic), not on rounding.
* Byte buffers, files and datagrams are List Nat; shared memory is a byte list.
* sqrt on nonnegative rationals is irrational in general, so the mesh
  generation is parametrised by the sqrt function on finite values
  (sqrtF : Rat -> Rat); every theorem only assumes properties of sqrtF that
  IEEE-754 sqrt has (such as sqrtF 0 = 0), or none at all.
-/

/-- A modelled f32 value: some finite exact rational, or a non-finite value. -/
def F : Type := Option ℚ

instance : DecidableEq F := by
  unfold F
  infer_instance

/-- Finite float literal. -/
def Ffin (q : ℚ) : F := some q

/-- IEEE-style addition on modelled floats: non-finite operands propagate. -/
def Fadd (a b : F) : F :=
  match a, b with
  | some x, some y => some (x + y)
  | _, _ => none

/-- IEEE-style subtraction on modelled floats. -/
def Fsub (a b : F) : F :=
  match a, b with
  | some x, some y => some (x - y)
  | _, _ => none

/-- IEEE-style multiplication on modelled floats. -/
def Fmul (a b : F) : F :=
  match a, b with
  | some x, some y => some (x * y)
  | _, _ => none

/-- IEEE-style division: division by zero yields a non-finite value
(0/0 is NaN, x/0 is an infinity; both are modelled by none). -/
def Fdiv (a b : F) : F :=
  match a, b with
  | some x, some y => if y = 0 then none else some (x / y)
  | _, _ => none

/-- IEEE-style negation. -/
def Fneg (a : F) : F :=
  match a with
  | some x => some (-x)
  | none => none

/-- Rust f32::max: if one operand is non-finite (NaN) the other is returned. -/
def Fmax (a b : F) : F :=
  match a, b with
  | some x, some y => some (max x y)
  | some x, none => some x
  | none, b2 => b2

/-- IEEE-style square root, parametrised by the sqrt function on finite
nonnegative rationals; sqrt of a negative value is NaN. -/
def Fsqrt (sqrtF : ℚ → ℚ) (a : F) : F :=
  match a with
  | some x => if x < 0 then none else some (sqrtF x)
  | none => none

/-- Truncation toward zero of a finite rational (Rust `as i32` on the exact
value); Int.tdiv is the toward-zero (truncating) division, so negative
rationals in (-1,0) truncate to 0 exactly as the cast does.  Non-finite
values are modelled as NaN, and NaN as i32 is 0. -/
def FtruncI (a : F) : Int :=
  match a with
  | some q => Int.tdiv q.num (q.den : Int)
  | none => 0

/-!
## Telemetry bridge: packed layouts (src/Overlay/src/gw2link.rs)

LinkedMem / LinkedMemNet / MumbleContext are repr(C, packed) structs;
their packed byte layout is the concatenation of the fields in declaration
order with no padding.  The layout lists below record (field, byte size)
pairs straight from the Rust declarations.
-/

/-- Packed size of a layout: the sum of its field sizes (no padding). -/
def packedSize (l : List (String × Nat)) : Nat :=
  (l.map Prod.snd).sum

/-- Field layout of `LinkedMemNet` (the wire record, which omits the
description field), from the struct declaration in gw2link.rs. -/
def linkedMemNetLayout : List (String × Nat) :=
  [("ui_version", 4), ("ui_tick", 4),
   ("avatar_position", 12), ("avatar_front", 12), ("avatar_top", 12),
   ("name", 512),
   ("camera_position", 12), ("camera_front", 12), ("camera_top", 12),
   ("identity", 512),
   ("context_len", 4), ("context", 256)]

/-- Field layout of `LinkedMem` (the locally mapped record): the wire fields
followed by the 2048-element u16 description buffer. -/
def linkedMemLayout : List (String × Nat) :=
  linkedMemNetLayout ++ [("description", 4096)]

/-- Field layout of `MumbleContext`, from the struct declaration in
gw2link.rs (the Rust field `instance` is listed under its wire name). -/
def mumbleContextLayout : List (String × Nat) :=
  [("server_address", 28),
   ("map_id", 4), ("map_type", 4), ("shard_id", 4), ("instance", 4),
   ("build_id", 4), ("ui_state", 4),
   ("compass_width", 2), ("compass_height", 2),
   ("compass_rotation", 4), ("player_x", 4), ("player_y", 4),
   ("map_center_x", 4), ("map_center_y", 4), ("map_scale", 4),
   ("process_id", 4), ("mount_index", 1)]

/-- Wire size constant STRUCT_SIZE = size_of LinkedMemNet. -/
def STRUCT_SIZE : Nat := packedSize linkedMemNetLayout

/-- Size of the locally mapped record, size_of LinkedMem. -/
def LINKEDMEM_SIZE : Nat := packedSize linkedMemLayout

/-- The wire record `LinkedMemNet`: f32 fields are kept as their raw 32-bit
patterns (transmute copies bits; nothing in the link interprets them), u16
buffers as lists of 16-bit values, context as raw bytes. -/
structure LinkedMemNet where
  ui_version : Nat
  ui_tick : Nat
  avatar_position : List Nat
  avatar_front : List Nat
  avatar_top : List Nat
  name : List Nat
  camera_position : List Nat
  camera_front : List Nat
  camera_top : List Nat
  identity : List Nat
  context_len : Nat
  context : List Nat
  deriving DecidableEq, Repr

/-- The locally mapped record `LinkedMem`: the wire fields plus the
description buffer (2048 u16 values). -/
structure LinkedMem where
  ui_version : Nat
  ui_tick : Nat
  avatar_position : List Nat
  avatar_front : List Nat
  avatar_top : List Nat
  name : List Nat
  camera_position : List Nat
  camera_front : List Nat
  camera_top : List Nat
  identity : List Nat
  context_len : Nat
  context : List Nat
  description : List Nat
  deriving DecidableEq, Repr

/-- `impl From LinkedMemNet for LinkedMem`: copy every wire field and
zero-fill the description buffer. -/
def LinkedMem.fromNet (v : LinkedMemNet) : LinkedMem :=
  { ui_version := v.ui_version
    ui_tick := v.ui_tick
    avatar_position := v.avatar_position
    avatar_front := v.avatar_front
    avatar_top := v.avatar_top
    name := v.name
    camera_position := v.camera_position
    camera_front := v.camera_front
    camera_top := v.camera_top
    identity := v.identity
    context_len := v.context_len
    context := v.context
    description := List.replicate 2048 0 }

/-- Projection of a mapped record onto the wire fields (drops description);
used to state field-for-field equality with a wire record. -/
def LinkedMem.toNet (v : LinkedMem) : LinkedMemNet :=
  { ui_version := v.ui_version
    ui_tick := v.ui_tick
    avatar_position := v.avatar_position
    avatar_front := v.avatar_front
    avatar_top := v.avatar_top
    name := v.name
    camera_position := v.camera_position
    camera_front := v.camera_front
    camera_top := v.camera_top
    identity := v.identity
    context_len := v.context_len
    context := v.context }

/-!
## Byte-level reading (the transmute of a packed little-endian buffer)

A repr(C, packed) struct transmuted from a byte buffer is read field by
field at the fixed offsets given by the layout; every read is in bounds
whenever the buffer has the packed size, so the reinterpretation is a total
function of the bytes.
-/

/-- Little-endian value of a byte list. -/
def leBytes (l : List Nat) : Nat :=
  l.foldr (fun b acc => b + 256 * acc) 0

/-- Byte offset of a field inside a packed layout. -/
def offsetOf : List (String × Nat) → String → Nat
  | [], _ => 0
  | (k, sz) :: rest, f => if k = f then 0 else sz + offsetOf rest f

/-- Little-endian u32 at a byte offset. -/
def field32 (l : List Nat) (off : Nat) : Nat :=
  leBytes ((l.drop off).take 4)

/-- Little-endian u16 at a byte offset. -/
def field16 (l : List Nat) (off : Nat) : Nat :=
  leBytes ((l.drop off).take 2)

/-- Array of n little-endian u32 values starting at a byte offset. -/
def arr32 (l : List Nat) (off n : Nat) : List Nat :=
  (List.range n).map fun i => field32 l (off + 4 * i)

/-- Array of n little-endian u16 values starting at a byte offset. -/
def arr16 (l : List Nat) (off n : Nat) : List Nat :=
  (List.range n).map fun i => field16 l (off + 2 * i)

/-- Raw byte slice at a byte offset. -/
def bytesAt (l : List Nat) (off n : Nat) : List Nat :=
  (l.drop off).take n

/-- Reinterpretation (transmute) of a packed little-endian byte buffer as a
`LinkedMemNet`, each field read at its layout offset. -/
def parseLinkedMemNet (l : List Nat) : LinkedMemNet :=
  let off := offsetOf linkedMemNetLayout
  { ui_version := field32 l (off "ui_version")
    ui_tick := field32 l (off "ui_tick")
    avatar_position := arr32 l (off "avatar_position") 3
    avatar_front := arr32 l (off "avatar_front") 3
    avatar_top := arr32 l (off "avatar_top") 3
    name := arr16 l (off "name") 256
    camera_position := arr32 l (off "camera_position") 3
    camera_front := arr32 l (off "camera_front") 3
    camera_top := arr32 l (off "camera_top") 3
    identity := arr16 l (off "identity") 256
    context_len := field32 l (off "context_len")
    context := bytesAt l (off "context") 256 }

/-- Reinterpretation of a byte buffer as the full mapped `LinkedMem`
(the wire fields followed by the description buffer at offset 1364). -/
def parseLinkedMem (l : List Nat) : LinkedMem :=
  let net := parseLinkedMemNet l
  { ui_version := net.ui_version
    ui_tick := net.ui_tick
    avatar_position := net.avatar_position
    avatar_front := net.avatar_front
    avatar_top := net.avatar_top
    name := net.name
    camera_position := net.camera_position
    camera_front := net.camera_front
    camera_top := net.camera_top
    identity := net.identity
    context_len := net.context_len
    context := net.context
    description := arr16 l (offsetOf linkedMemLayout "description") 2048 }

/-!
## GW2Link::update_gw2 and GW2Link::new
-/

/-- The outcome of one `socket.recv` call: a datagram\'s received bytes, or a
receive timeout / error. -/
inductive RecvResult where
  | ok (data : List Nat)
  | err (e : String)

/-- `GW2Link::update_gw2` (gw2link.rs): one receive; when the byte count is
exactly STRUCT_SIZE, transmute to `LinkedMemNet`, convert to `LinkedMem`
(zero-filled description) and overwrite the shared record, returning true;
any other size, or a receive error/timeout, leaves the region unchanged and
returns false.  The region is the typed shared record. -/
def update_gw2 (region : LinkedMem) (recv : RecvResult) : LinkedMem × Bool :=
  match recv with
  | .ok data =>
    if data.length = STRUCT_SIZE then
      (LinkedMem.fromNet (parseLinkedMemNet data), true)
    else
      (region, false)
  | .err _ => (region, false)

/-- Overwrite the first n bytes of a buffer with zero (libc memset(p,0,n)). -/
def memset_zero (l : List Nat) (n : Nat) : List Nat :=
  List.replicate n 0 ++ l.drop n

/-- `GW2Link::new` (gw2link.rs), as the transformation of the mapped bytes:
`shm_open` either opens an existing segment (prior contents preserved) or
creates one sized to size_of LinkedMem and zero-filled by ftruncate; after
`mmap`, `memset(map, 0, size_of LinkedMem)` runs unconditionally.  The
argument is the pre-existing segment contents, if any. -/
def gw2link_new (existing : Option (List Nat)) : List Nat :=
  let mapped :=
    match existing with
    | some bytes => bytes
    | none => List.replicate LINKEDMEM_SIZE 0
  memset_zero mapped LINKEDMEM_SIZE

/-- `GW2Link::get_gw2_data`: a typed snapshot copy of the mapped region. -/
def get_gw2_data (regionBytes : List Nat) : LinkedMem :=
  parseLinkedMem regionBytes

/-- The all-zero mapped record. -/
def zeroLinkedMem : LinkedMem :=
  { ui_version := 0
    ui_tick := 0
    avatar_position := List.replicate 3 0
    avatar_front := List.replicate 3 0
    avatar_top := List.replicate 3 0
    name := List.replicate 256 0
    camera_position := List.replicate 3 0
    camera_front := List.replicate 3 0
    camera_top := List.replicate 3 0
    identity := List.replicate 256 0
    context_len := 0
    context := List.replicate 256 0
    description := List.replicate 2048 0 }

/-- CLAIM C2 helper: round trip of the field copy. -/
theorem toNet_fromNet (net : LinkedMemNet) :
    (LinkedMem.fromNet net).toNet = net := rfl

/-- C2: for every received datagram of exactly the wire-record size (1364
bytes), update_gw2 writes into the region the record equal to the wire record
field-for-field with the description field all zeroes, and returns true. -/
theorem update_gw2_valid_datagram (region : LinkedMem) (data : List Nat)
    (h : data.length = 1364) :
    update_gw2 region (.ok data) =
      (LinkedMem.fromNet (parseLinkedMemNet data), true) ∧
    (LinkedMem.fromNet (parseLinkedMemNet data)).toNet = parseLinkedMemNet data ∧
    (LinkedMem.fromNet (parseLinkedMemNet data)).description =
      List.replicate 2048 0 := by
  have hsz : data.length = STRUCT_SIZE := by
    simpa [STRUCT_SIZE, packedSize, linkedMemNetLayout] using h
  refine ⟨?_, rfl, rfl⟩
  simp [update_gw2, hsz]

/-- Witness for C2 at the all-zero 1364-byte datagram. -/
theorem update_gw2_valid_datagram_witness :
    update_gw2 zeroLinkedMem (.ok (List.replicate 1364 0)) =
      (LinkedMem.fromNet (parseLinkedMemNet (List.replicate 1364 0)), true) ∧
    (LinkedMem.fromNet (parseLinkedMemNet (List.replicate 1364 0))).toNet =
      parseLinkedMemNet (List.replicate 1364 0) ∧
    (LinkedMem.fromNet (parseLinkedMemNet (List.replicate 1364 0))).description =
      List.replicate 2048 0 :=
  update_gw2_valid_datagram zeroLinkedMem (List.replicate 1364 0)
    (List.length_replicate 1364 0)

/-- C3: for every received datagram whose byte count differs from the wire
size, and for every receive timeout or error, update_gw2 returns false and
leaves the shared-memory region unchanged. -/
theorem update_gw2_invalid (region : LinkedMem) (recv : RecvResult)
    (h : match recv with
         | .ok data => data.length ≠ 1364
         | .err _ => True) :
    update_gw2 region recv = (region, false) := by
  match recv with
  | .ok data =>
    have hne : data.length ≠ STRUCT_SIZE := by
      simpa [STRUCT_SIZE, packedSize, linkedMemNetLayout] using h
    simp [update_gw2, hne]
  | .err e => rfl

/-- Witness for C3 at a 10-byte datagram and at a receive error. -/
theorem update_gw2_invalid_witness :
    update_gw2 zeroLinkedMem (.ok (List.replicate 10 0)) =
      (zeroLinkedMem, false) :=
  update_gw2_invalid zeroLinkedMem (.ok (List.replicate 10 0))
    (by show (List.replicate 10 0).length ≠ 1364
        rw [List.length_replicate]; omega)

/-- C8: the packed size of MumbleContext is exactly 85 bytes and the packed
size of the wire record LinkedMemNet (which omits the description field) is
exactly 1364 bytes; these are the values pinned by the const_assert_eq
build-time assertions in gw2link.rs. -/
theorem packed_sizes :
    packedSize mumbleContextLayout = 85 ∧
    packedSize linkedMemNetLayout = 1364 ∧
    STRUCT_SIZE = 1364 ∧ LINKEDMEM_SIZE = 5460 := by
  refine ⟨?_, ?_, ?_, ?_⟩ <;> rfl

/-!
### C9: construction zeroes the whole region
-/

theorem leBytes_replicate (n : Nat) : leBytes (List.replicate n 0) = 0 := by
  induction n with
  | zero => rfl
  | succ m ih => simp [List.replicate_succ, leBytes] at ih ⊢; exact ih

theorem field32_replicate_zero (m off : Nat) :
    field32 (List.replicate m 0) off = 0 := by
  simp [field32, List.drop_replicate, List.take_replicate, leBytes_replicate]

theorem field16_replicate_zero (m off : Nat) :
    field16 (List.replicate m 0) off = 0 := by
  simp [field16, List.drop_replicate, List.take_replicate, leBytes_replicate]

theorem arr32_replicate_zero (m off n : Nat) :
    arr32 (List.replicate m 0) off n = List.replicate n 0 := by
  refine List.eq_replicate_iff.2 ⟨by simp [arr32], ?_⟩
  intro b hb
  simp only [arr32, List.mem_map] at hb
  obtain ⟨i, _, hi⟩ := hb
  rw [← hi, field32_replicate_zero]

theorem arr16_replicate_zero (m off n : Nat) :
    arr16 (List.replicate m 0) off n = List.replicate n 0 := by
  refine List.eq_replicate_iff.2 ⟨by simp [arr16], ?_⟩
  intro b hb
  simp only [arr16, List.mem_map] at hb
  obtain ⟨i, _, hi⟩ := hb
  rw [← hi, field16_replicate_zero]

theorem linkedmem_size_eq : LINKEDMEM_SIZE = 5460 := rfl

theorem offset_context : offsetOf linkedMemNetLayout "context" = 1108 := rfl

theorem offset_description : offsetOf linkedMemLayout "description" = 1364 := rfl

set_option maxRecDepth 8000 in
theorem parse_zero_region :
    parseLinkedMem (List.replicate LINKEDMEM_SIZE 0) = zeroLinkedMem := by
  simp only [parseLinkedMem, parseLinkedMemNet, zeroLinkedMem,
    field32_replicate_zero, arr32_replicate_zero, arr16_replicate_zero,
    bytesAt, linkedmem_size_eq, offset_context, offset_description,
    List.drop_replicate, List.take_replicate]
  norm_num

theorem memset_zero_full (l : List Nat) (n : Nat) (h : l.length = n) :
    memset_zero l n = List.replicate n 0 := by
  subst h
  simp [memset_zero, List.drop_length]

/-- C9: every construction of the telemetry bridge zeroes the entire mapped
region unconditionally, including when an existing segment with prior
contents was opened, so a read immediately afterwards returns the all-zero
record, whose tick is 0. -/
theorem gw2link_new_zeroes (prior : List Nat)
    (h : prior.length = LINKEDMEM_SIZE) :
    get_gw2_data (gw2link_new (some prior)) = zeroLinkedMem ∧
    get_gw2_data (gw2link_new none) = zeroLinkedMem ∧
    zeroLinkedMem.ui_tick = 0 := by
  refine ⟨?_, ?_, rfl⟩
  · show parseLinkedMem (memset_zero prior LINKEDMEM_SIZE) = zeroLinkedMem
    rw [memset_zero_full prior LINKEDMEM_SIZE h, parse_zero_region]
  · show parseLinkedMem (memset_zero (List.replicate LINKEDMEM_SIZE 0)
      LINKEDMEM_SIZE) = zeroLinkedMem
    rw [memset_zero_full _ _ (List.length_replicate _ _), parse_zero_region]

/-- Witness for C9 at a region previously filled with the byte 7. -/
theorem gw2link_new_zeroes_witness :
    get_gw2_data (gw2link_new (some (List.replicate 5460 7))) = zeroLinkedMem ∧
    get_gw2_data (gw2link_new none) = zeroLinkedMem ∧
    zeroLinkedMem.ui_tick = 0 :=
  gw2link_new_zeroes (List.replicate 5460 7) (List.length_replicate 5460 7)

/-!
## Trail track loading (src/Overlay/src/trail.rs, Trail::load_map_trail)

A track file is bytes [0,4) header (ignored), bytes [4,8) little-endian u32
map id, then packed little-endian f32 {x,y,z} triples; the loop reads
num_coords = len/12 triples at offsets 12*i, so a trailing partial triple is
dropped.  All reads are in bounds whenever the 8-byte check passes, hence no
I/O error path is reachable and the model is a total function; an unopenable
file (argument none) is logged and yields no points.
-/

/-- Exact value of an f32 bit pattern: sign, 8 exponent bits, 23 fraction
bits; exponent 255 encodes infinities and NaN (modelled as none). -/
def decodeF32 (bits : Nat) : F :=
  let sgn : Nat := bits / 2 ^ 31 % 2
  let ex : Nat := bits / 2 ^ 23 % 2 ^ 8
  let frac : Nat := bits % 2 ^ 23
  if ex = 255 then none
  else
    let mag : ℚ :=
      if ex = 0 then (frac : ℚ) * (2 : ℚ) ^ (-(149 : ℤ))
      else ((2 : ℚ) ^ (23 : ℕ) + (frac : ℚ)) * (2 : ℚ) ^ ((ex : ℤ) - 150)
    some (if sgn = 1 then -mag else mag)

/-- One loaded track point (struct TrailData: three f32 fields). -/
structure TrailData where
  x : F
  y : F
  z : F
  deriving DecidableEq

/-- The i-th coordinate triple of a track buffer: three little-endian f32
reads at offset 12*i, followed by the as_gw2_coordinate conversion from
utils.rs, which negates z (the default build, without the custom_projection
feature). -/
def trailPoint (buffer : List Nat) (i : Nat) : TrailData :=
  let px := decodeF32 (field32 buffer (12 * i))
  let py := decodeF32 (field32 buffer (12 * i + 4))
  let pz := decodeF32 (field32 buffer (12 * i + 8))
  { x := px, y := py, z := Fneg pz }

/-- `Trail::load_map_trail`: the argument is the opened file's bytes, or
none when the file could not be opened (logged, not an error).  Returns the
map id stored into the POI and the loaded track points. -/
def load_map_trail (file : Option (List Nat)) : Option Nat × List TrailData :=
  match file with
  | none => (none, [])
  | some bytes =>
    if 8 ≤ bytes.length then
      let map_id := field32 bytes 4
      let buffer := bytes.drop 8
      let num_coords := buffer.length / 12
      (some map_id, (List.range num_coords).map (trailPoint buffer))
    else
      (none, [])

/-- C7: a track file with at least 8 bytes yields exactly (len-8)/12 points
(trailing partial triple dropped), the i-th point decoded from the i-th
12-byte chunk after the header, in file order; a file shorter than 8 bytes
and an unopenable file yield zero points, without an error. -/
theorem load_map_trail_spec :
    (∀ bytes : List Nat, 8 ≤ bytes.length →
      load_map_trail (some bytes) =
        (some (field32 bytes 4),
         (List.range ((bytes.length - 8) / 12)).map (trailPoint (bytes.drop 8))) ∧
      (load_map_trail (some bytes)).2.length = (bytes.length - 8) / 12 ∧
      ∀ i : Nat, i < (bytes.length - 8) / 12 →
        (load_map_trail (some bytes)).2[i]? =
          some (trailPoint (bytes.drop 8) i)) ∧
    (∀ bytes : List Nat, bytes.length < 8 →
      load_map_trail (some bytes) = (none, [])) ∧
    load_map_trail none = (none, []) := by
  refine ⟨?_, ?_, rfl⟩
  · intro bytes h
    have hlen : (bytes.drop 8).length = bytes.length - 8 := by
      simp
    refine ⟨by simp [load_map_trail, h, hlen], by simp [load_map_trail, h, hlen], ?_⟩
    intro i hi
    simp [load_map_trail, h, hlen, List.getElem?_map, List.getElem?_range, hi]
  · intro bytes h
    have hno : ¬ 8 ≤ bytes.length := by omega
    simp [load_map_trail, hno]

/-- Witness for C7 at a 20-byte all-zero file (one full triple, 8 bytes of
header, no error) and at an unopenable file. -/
theorem load_map_trail_spec_witness :
    load_map_trail (some (List.replicate 20 0)) =
      (some (field32 (List.replicate 20 0) 4),
       (List.range (((List.replicate 20 (0 : Nat)).length - 8) / 12)).map
         (trailPoint ((List.replicate 20 (0 : Nat)).drop 8))) ∧
    load_map_trail none = (none, []) :=
  ⟨(load_map_trail_spec.1 (List.replicate 20 0) (by simp)).1,
   load_map_trail_spec.2.2⟩

/-!
## Ribbon mesh generation (src/Overlay/src/trail.rs, Trail::generate_meshes)

The source iterates over trail_data with mutable state (meshes, vertices,
indices, current_index, prev_data, prev_p1, prev_p2); the iteration is a
left fold of one step function over the point list.  Vertex/index buffers
are lists; a Mesh keeps the three vertex attribute arrays inserted by
create_mesh plus the index list.  The u32 index counter wraps mod 2^32.
-/

/-- Modelled bevy Vec3 (three f32 components). -/
structure Vec3 where
  x : F
  y : F
  z : F
  deriving DecidableEq

/-- Vec3::ZERO. -/
def Vec3.ZERO : Vec3 := { x := some 0, y := some 0, z := some 0 }

/-- Modelled bevy Vec4 (vertex color). -/
structure Vec4 where
  x : F
  y : F
  z : F
  w : F
  deriving DecidableEq

/-- Vec4::ONE. -/
def Vec4.ONE : Vec4 := { x := some 1, y := some 1, z := some 1, w := some 1 }

/-- Modelled bevy Vec2 (texture coordinate). -/
structure Vec2 where
  x : F
  y : F
  deriving DecidableEq

/-- A mesh vertex: position, color, texture coordinate. -/
structure Vertex where
  pos : Vec3
  color : Vec4
  tex_coord : Vec2
  deriving DecidableEq

/-- A generated mesh: the position/color/uv attribute arrays inserted by
create_mesh, plus the index list. -/
structure Mesh where
  positions : List Vec3
  colors : List Vec4
  uvs : List Vec2
  indices : List Nat
  deriving DecidableEq

/-- create_mesh (trail.rs): insert the per-vertex attribute arrays and the
index buffer. -/
def create_mesh (vertices : List Vertex) (indices : List Nat) : Mesh :=
  { positions := vertices.map Vertex.pos
    colors := vertices.map Vertex.color
    uvs := vertices.map Vertex.tex_coord
    indices := indices }

/-- Vec3::distance: sqrt of the sum of squared component differences. -/
def Vec3.distance (sqrtF : ℚ → ℚ) (a b : Vec3) : F :=
  Fsqrt sqrtF
    (Fadd (Fadd (Fmul (Fsub a.x b.x) (Fsub a.x b.x))
                (Fmul (Fsub a.y b.y) (Fsub a.y b.y)))
          (Fmul (Fsub a.z b.z) (Fsub a.z b.z)))

/-- `Trail::get_perpendicular_point`: normal of the horizontal (x,z) delta
between p1 and p2, scaled by the given distance to both sides of p2.  The
norm divides a and b with no zero guard. -/
def get_perpendicular_point (sqrtF : ℚ → ℚ) (p1 p2 : Vec3) (distance : F) :
    Vec3 × Vec3 :=
  let a := Fsub p1.z p2.z
  let b := Fsub p1.x p2.x
  let norm := Fsqrt sqrtF (Fadd (Fmul a a) (Fmul b b))
  let a2 := Fdiv a norm
  let b2 := Fdiv b norm
  let out1 : Vec3 :=
    { x := Fsub p2.x (Fmul a2 distance)
      y := p2.y
      z := Fadd p2.z (Fmul b2 distance) }
  let out2 : Vec3 :=
    { x := Fadd p2.x (Fmul a2 distance)
      y := p2.y
      z := Fsub p2.z (Fmul b2 distance) }
  (out1, out2)

/-- The ribbon half-width (local `width = 0.5` in generate_meshes). -/
def TRAIL_WIDTH : F := some (1 / 2)

/-- The origin-sentinel test: every component truncates (as i32) to 0. -/
def sentinelCheck (v : Vec3) : Bool :=
  (FtruncI v.x == 0) && (FtruncI v.y == 0) && (FtruncI v.z == 0)

/-- The mutable iteration state of generate_meshes. -/
structure GenState where
  meshes : List Mesh
  vertices : List Vertex
  indices : List Nat
  current_index : Nat
  prev_data : Option Vec3
  prev_p1 : Vec3
  prev_p2 : Vec3
  deriving DecidableEq

/-- The initial state of generate_meshes. -/
def genInit : GenState :=
  { meshes := [], vertices := [], indices := [], current_index := 0,
    prev_data := none, prev_p1 := Vec3.ZERO, prev_p2 := Vec3.ZERO }

/-- One iteration of the generate_meshes loop body. -/
def genStep (sqrtF : ℚ → ℚ) (s : GenState) (t : TrailData) : GenState :=
  let current_data : Vec3 := { x := t.x, y := t.y, z := t.z }
  if sentinelCheck current_data then
    if 0 < s.vertices.length ∧ 0 < s.indices.length then
      { meshes := s.meshes ++ [create_mesh s.vertices s.indices]
        vertices := []
        indices := []
        current_index := 0
        prev_data := none
        prev_p1 := s.prev_p1
        prev_p2 := s.prev_p2 }
    else s
  else
    match s.prev_data with
    | some prev =>
      let v1 : Vertex :=
        { pos := s.prev_p1, color := Vec4.ONE, tex_coord := ⟨some 0, some 0⟩ }
      let v2 : Vertex :=
        { pos := s.prev_p2, color := Vec4.ONE, tex_coord := ⟨some 1, some 0⟩ }
      let pp := get_perpendicular_point sqrtF prev current_data TRAIL_WIDTH
      let dist := Vec3.distance sqrtF prev current_data
      let frac := Fmul (Fmax (some 1) (Fdiv dist TRAIL_WIDTH)) (some (-1))
      let v3 : Vertex :=
        { pos := pp.2, color := Vec4.ONE, tex_coord := ⟨some 1, frac⟩ }
      let v4 : Vertex :=
        { pos := pp.1, color := Vec4.ONE, tex_coord := ⟨some 0, frac⟩ }
      { meshes := s.meshes
        vertices := s.vertices ++ [v1, v2, v3, v4]
        indices := s.indices ++
          [s.current_index % 2 ^ 32, (s.current_index + 1) % 2 ^ 32,
           (s.current_index + 2) % 2 ^ 32, (s.current_index + 2) % 2 ^ 32,
           (s.current_index + 3) % 2 ^ 32, s.current_index % 2 ^ 32]
        current_index := (s.current_index + 4) % 2 ^ 32
        prev_data := some current_data
        prev_p1 := pp.1
        prev_p2 := pp.2 }
    | none =>
      { s with
        prev_p1 := { x := Fsub t.x TRAIL_WIDTH, y := t.y, z := t.z }
        prev_p2 := { x := Fadd t.x TRAIL_WIDTH, y := t.y, z := t.z }
        prev_data := some current_data }

/-- `Trail::generate_meshes`: fold the loop body over the track points and
flush the last strip if it holds any geometry. -/
def generate_meshes (sqrtF : ℚ → ℚ) (trail_data : List TrailData) : List Mesh :=
  let s := trail_data.foldl (genStep sqrtF) genInit
  if 0 < s.vertices.length ∧ 0 < s.indices.length then
    s.meshes ++ [create_mesh s.vertices s.indices]
  else
    s.meshes

/-!
### C4: sentinel splitting
-/

theorem genStep_sentinel_flush (sqrtF : ℚ → ℚ) (s : GenState) (t : TrailData)
    (ht : sentinelCheck { x := t.x, y := t.y, z := t.z } = true)
    (hv : 0 < s.vertices.length) (hi : 0 < s.indices.length) :
    genStep sqrtF s t =
      { meshes := s.meshes ++ [create_mesh s.vertices s.indices]
        vertices := []
        indices := []
        current_index := 0
        prev_data := none
        prev_p1 := s.prev_p1
        prev_p2 := s.prev_p2 } := by
  simp [genStep, ht, hv, hi]

theorem run_nonsentinel (sqrtF : ℚ → ℚ) (r : List TrailData) :
    ∀ (s : GenState) (prev : Vec3),
      (∀ p ∈ r, sentinelCheck { x := p.x, y := p.y, z := p.z } = false) →
      s.prev_data = some prev →
      ∃ prev2 : Vec3,
        (r.foldl (genStep sqrtF) s).meshes = s.meshes ∧
        (r.foldl (genStep sqrtF) s).vertices.length =
          s.vertices.length + 4 * r.length ∧
        (r.foldl (genStep sqrtF) s).indices.length =
          s.indices.length + 6 * r.length ∧
        (r.foldl (genStep sqrtF) s).prev_data = some prev2 := by
  induction r with
  | nil =>
    intro s prev _ hp
    exact ⟨prev, rfl, by simp, by simp, hp⟩
  | cons p rest ih =>
    intro s prev hall hp
    have hpf : sentinelCheck { x := p.x, y := p.y, z := p.z } = false :=
      hall p (by simp)
    have hrest : ∀ u ∈ rest, sentinelCheck { x := u.x, y := u.y, z := u.z } = false :=
      fun u hu => hall u (by simp [hu])
    have h2meshes : (genStep sqrtF s p).meshes = s.meshes := by
      simp [genStep, hpf, hp]
    have h2v : (genStep sqrtF s p).vertices.length = s.vertices.length + 4 := by
      simp [genStep, hpf, hp]
    have h2i : (genStep sqrtF s p).indices.length = s.indices.length + 6 := by
      simp [genStep, hpf, hp]
    have h2p : (genStep sqrtF s p).prev_data =
        some { x := p.x, y := p.y, z := p.z } := by
      simp [genStep, hpf, hp]
    obtain ⟨prev2, hm, hv, hi, hpd⟩ := ih (genStep sqrtF s p) _ hrest h2p
    refine ⟨prev2, ?_, ?_, ?_, ?_⟩
    · rw [List.foldl_cons, hm, h2meshes]
    · rw [List.foldl_cons, hv, h2v]; simp; ring
    · rw [List.foldl_cons, hi, h2i]; simp; ring
    · rw [List.foldl_cons, hpd]

theorem run_fresh (sqrtF : ℚ → ℚ) (r : List TrailData) (hne : r ≠ [])
    (hall : ∀ p ∈ r, sentinelCheck { x := p.x, y := p.y, z := p.z } = false) :
    ∀ s : GenState, s.vertices = [] → s.indices = [] → s.prev_data = none →
      ∃ prev2 : Vec3,
        (r.foldl (genStep sqrtF) s).meshes = s.meshes ∧
        (r.foldl (genStep sqrtF) s).vertices.length = 4 * (r.length - 1) ∧
        (r.foldl (genStep sqrtF) s).indices.length = 6 * (r.length - 1) ∧
        (r.foldl (genStep sqrtF) s).prev_data = some prev2 := by
  cases r with
  | nil => exact absurd rfl hne
  | cons p rest =>
    intro s hv hi hp
    have hpf : sentinelCheck { x := p.x, y := p.y, z := p.z } = false :=
      hall p (by simp)
    have hrest : ∀ u ∈ rest, sentinelCheck { x := u.x, y := u.y, z := u.z } = false :=
      fun u hu => hall u (by simp [hu])
    have h2 : genStep sqrtF s p =
        { s with
          prev_p1 := { x := Fsub p.x TRAIL_WIDTH, y := p.y, z := p.z }
          prev_p2 := { x := Fadd p.x TRAIL_WIDTH, y := p.y, z := p.z }
          prev_data := some { x := p.x, y := p.y, z := p.z } } := by
      simp [genStep, hpf, hp]
    obtain ⟨prev2, hm, hv2, hi2, hpd⟩ :=
      run_nonsentinel sqrtF rest (genStep sqrtF s p)
        { x := p.x, y := p.y, z := p.z } hrest (by rw [h2])
    refine ⟨prev2, ?_, ?_, ?_, ?_⟩
    · rw [List.foldl_cons, hm, h2]
    · rw [List.foldl_cons, hv2, h2]
      simp [hv]
    · rw [List.foldl_cons, hi2, h2]
      simp [hi]
    · rw [List.foldl_cons, hpd]

/-- C4: a point sequence made of a run of at least two non-sentinel points,
one origin sentinel, and another run of at least two non-sentinel points
produces exactly two separate strips; and a strip that only ever had a
single point emits no geometry. -/
theorem generate_meshes_sentinel_split (sqrtF : ℚ → ℚ)
    (r1 r2 : List TrailData) (q : TrailData)
    (h1 : ∀ p ∈ r1, sentinelCheck { x := p.x, y := p.y, z := p.z } = false)
    (h2 : ∀ p ∈ r2, sentinelCheck { x := p.x, y := p.y, z := p.z } = false)
    (hq : sentinelCheck { x := q.x, y := q.y, z := q.z } = true)
    (hl1 : 2 ≤ r1.length) (hl2 : 2 ≤ r2.length) :
    (generate_meshes sqrtF (r1 ++ q :: r2)).length = 2 ∧
    ∀ p : TrailData, generate_meshes sqrtF [p] = [] := by
  constructor
  · have hne1 : r1 ≠ [] := by
      intro h; rw [h] at hl1; simp at hl1
    have hne2 : r2 ≠ [] := by
      intro h; rw [h] at hl2; simp at hl2
    obtain ⟨pv1, hm1, hv1, hi1, hp1⟩ :=
      run_fresh sqrtF r1 hne1 h1 genInit rfl rfl rfl
    have hv1p : 0 < (r1.foldl (genStep sqrtF) genInit).vertices.length := by
      rw [hv1]; omega
    have hi1p : 0 < (r1.foldl (genStep sqrtF) genInit).indices.length := by
      rw [hi1]; omega
    have hstep := genStep_sentinel_flush sqrtF
      (r1.foldl (genStep sqrtF) genInit) q hq hv1p hi1p
    obtain ⟨pv2, hm2, hv2, hi2, hp2⟩ :=
      run_fresh sqrtF r2 hne2 h2
        (genStep sqrtF (r1.foldl (genStep sqrtF) genInit) q)
        (by rw [hstep]) (by rw [hstep]) (by rw [hstep])
    have hv2p : 0 < (r2.foldl (genStep sqrtF)
        (genStep sqrtF (r1.foldl (genStep sqrtF) genInit) q)).vertices.length := by
      rw [hv2]; omega
    have hi2p : 0 < (r2.foldl (genStep sqrtF)
        (genStep sqrtF (r1.foldl (genStep sqrtF) genInit) q)).indices.length := by
      rw [hi2]; omega
    have hfold : (r1 ++ q :: r2).foldl (genStep sqrtF) genInit =
        r2.foldl (genStep sqrtF)
          (genStep sqrtF (r1.foldl (genStep sqrtF) genInit) q) := by
      rw [List.foldl_append, List.foldl_cons]
    rw [generate_meshes, hfold, if_pos ⟨hv2p, hi2p⟩]
    rw [List.length_append, hm2, hstep]
    simp [hm1]
    rfl
  · intro p
    by_cases hp : sentinelCheck { x := p.x, y := p.y, z := p.z } = true
    · simp [generate_meshes, genStep, genInit, hp]
    · simp [generate_meshes, genStep, genInit, hp]

/-- Witness for C4 at two concrete runs of two points separated by the
origin sentinel. -/
theorem generate_meshes_sentinel_split_witness :
    (generate_meshes (fun _ => 0)
      ([⟨some 2, some 2, some 2⟩, ⟨some 3, some 3, some 3⟩] ++
        ⟨some 0, some 0, some 0⟩ ::
        [⟨some 4, some 4, some 4⟩, ⟨some 5, some 5, some 5⟩])).length = 2 ∧
    ∀ p : TrailData, generate_meshes (fun _ => 0) [p] = [] :=
  generate_meshes_sentinel_split (fun _ => 0)
    [⟨some 2, some 2, some 2⟩, ⟨some 3, some 3, some 3⟩]
    [⟨some 4, some 4, some 4⟩, ⟨some 5, some 5, some 5⟩]
    ⟨some 0, some 0, some 0⟩
    (by decide) (by decide) (by decide) (by decide) (by decide)

/-!
### C10: unguarded division by the horizontal norm
-/

/-- C10: get_perpendicular_point divides by the norm of the horizontal (x,z)
delta with no zero guard; for two consecutive non-sentinel points with equal
x and equal z the division by zero yields non-finite (NaN) rail coordinates,
and generate_meshes emits that non-finite geometry (the two new rail
vertices of the quad have NaN x), so this failure is reachable. -/
theorem rail_division_by_zero (sqrtF : ℚ → ℚ) (hsq : sqrtF 0 = 0)
    (x y1 y2 z : ℚ) (hx : FtruncI (some x) ≠ 0) :
    (get_perpendicular_point sqrtF
        { x := some x, y := some y1, z := some z }
        { x := some x, y := some y2, z := some z } TRAIL_WIDTH).1.x = none ∧
    (generate_meshes sqrtF
        [⟨some x, some y1, some z⟩, ⟨some x, some y2, some z⟩]).map
        (fun m => m.positions.map Vec3.x) =
      [[some (x - 1 / 2), some (x + 1 / 2), none, none]] := by
  have hb : (FtruncI (some x) == 0) = false := beq_eq_false_iff_ne.mpr hx
  have hs1 : sentinelCheck { x := some x, y := some y1, z := some z } = false := by
    simp [sentinelCheck, hb]
  have hs2 : sentinelCheck { x := some x, y := some y2, z := some z } = false := by
    simp [sentinelCheck, hb]
  constructor
  · simp [get_perpendicular_point, Fsub, Fmul, Fadd, Fsqrt, Fdiv, hsq]
  · simp [generate_meshes, genStep, genInit, hs1, hs2, create_mesh,
      get_perpendicular_point, Vec3.distance, Fsub, Fadd, Fmul, Fdiv,
      Fsqrt, Fmax, TRAIL_WIDTH, hsq]

/-- Witness for C10 at points (2, 0, 3) and (2, 5, 3). -/
theorem rail_division_by_zero_witness :
    (get_perpendicular_point (fun _ => 0)
        { x := some 2, y := some 0, z := some 3 }
        { x := some 2, y := some 5, z := some 3 } TRAIL_WIDTH).1.x = none ∧
    (generate_meshes (fun _ => 0)
        [⟨some 2, some 0, some 3⟩, ⟨some 2, some 5, some 3⟩]).map
        (fun m => m.positions.map Vec3.x) =
      [[some (2 - 1 / 2), some (2 + 1 / 2), none, none]] :=
  rail_division_by_zero (fun _ => 0) rfl 2 0 5 3 (by norm_num [FtruncI])

/-!
## Marker category / POI data model (src/Overlay/src/gw2poi.rs)

MarkerCategory owns a name-keyed map of child categories (built with the
child's own name as key) and a flattened POI as its attribute holder; a POI
carries an optional dotted type path, a position, the inheritable attribute
record, an optional (non-owning) parent link and an enabled flag.  The
Arc/RwLock sharing is modelled by a value tree: parent links hold the
parent's value, and the tree is acyclic by construction (the inductive
type), matching the invariant stated for the source.  The HashMap of
children is modelled as an association list keyed by the child name.
-/

/-- PoiBehavior enum (gw2poi.rs). -/
inductive PoiBehavior where
  | DEFAULT
  | REAPPEAR_ON_MAP_CHANGE
  | REAPPEAR_ON_DAILY_RESET
  | ONLY_VISIBLE_BEFORE_ACTIVATION
  | REAPPEAR_AFTER_TIMER
  | REAPPEAR_ON_MAP_RESET
  | ONCE_PER_INSTANCE
  | ONCE_DAILY_PER_CHARACTER
  | ACTION_ON_COMBAT
  deriving DecidableEq

/-- Position (gw2poi.rs): three f32 coordinates. -/
structure Position where
  xpos : F
  ypos : F
  zpos : F
  deriving DecidableEq

/-- The default position (all coordinates 0.0). -/
def Position.origin : Position :=
  { xpos := some 0, ypos := some 0, zpos := some 0 }

/-- InheritablePOIData (gw2poi.rs): every field optional; absence means
"inherit from the parent". -/
structure InheritablePOIData where
  map_id : Option Nat := none
  icon_file : Option String := none
  guid : Option String := none
  icon_size : Option F := none
  alpha : Option F := none
  behavior : Option PoiBehavior := none
  fade_near : Option F := none
  fade_far : Option F := none
  height_offset : Option F := none
  reset_length : Option F := none
  display_name : Option String := none
  auto_trigger : Option Bool := none
  has_countdown : Option Bool := none
  trigger_range : Option F := none
  achievement_id : Option Int := none
  achievement_bit : Option Int := none
  info : Option String := none
  info_range : Option F := none
  is_poi : Option Bool := none
  deriving DecidableEq

/-- The all-absent attribute record (Default::default()). -/
def emptyPOIData : InheritablePOIData := {}

mutual
/-- MarkerCategory (gw2poi.rs): a name, the name-keyed children map, and the
flattened POI attribute holder. -/
inductive MarkerCategory where
  | mk (name : String) (children : List (String × MarkerCategory)) (data : POI)

/-- POI (gw2poi.rs): optional dotted type path, position, inheritable data,
optional parent category link, enabled flag. -/
inductive POI where
  | mk (poi_type : Option String) (pos : Position)
       (data : InheritablePOIData) (parent : Option MarkerCategory)
       (enabled : Bool)
end

/-- The category's name. -/
def MarkerCategory.name : MarkerCategory → String
  | .mk n _ _ => n

/-- The category's children map. -/
def MarkerCategory.children : MarkerCategory → List (String × MarkerCategory)
  | .mk _ c _ => c

/-- The category's flattened POI attribute holder. -/
def MarkerCategory.data : MarkerCategory → POI
  | .mk _ _ d => d

/-- The POI's dotted type path. -/
def POI.poi_type : POI → Option String
  | .mk t _ _ _ _ => t

/-- The POI's own attribute record. -/
def POI.data : POI → InheritablePOIData
  | .mk _ _ d _ _ => d

/-- The POI's parent link (PoiTrait::get_parent). -/
def POI.parent : POI → Option MarkerCategory
  | .mk _ _ _ p _ => p

/-- PoiTrait::set_parent for POI: replace the parent link only. -/
def POI.set_parent : POI → Option MarkerCategory → POI
  | .mk t pos d _ e, p => .mk t pos d p e

/-- HashMap::get on the children map (keys are unique: the map is built
keyed by each child's name). -/
def childLookup : List (String × MarkerCategory) → String → Option MarkerCategory
  | [], _ => none
  | (k, c) :: rest, key => if k = key then some c else childLookup rest key

/-- str::split_once at the first dot, on the character list. -/
def splitOnceAux : List Char → Option (List Char × List Char)
  | [] => none
  | c :: rest =>
    if c = '.' then some ([], rest)
    else
      match splitOnceAux rest with
      | some (a, b) => some (c :: a, b)
      | none => none

/-- str::split_once at the first dot. -/
def split_once_dot (s : String) : Option (String × String) :=
  match splitOnceAux s.data with
  | some (a, b) => some (⟨a⟩, ⟨b⟩)
  | none => none

/-- `name.split_once dot unwrap_or (name, "")`: the first segment and the
rest of a dotted path. -/
def first_rest (name : String) : String × String :=
  match split_once_dot name with
  | some p => p
  | none => (name, "")

theorem childLookup_sizeOf (l : List (String × MarkerCategory)) (key : String)
    (c : MarkerCategory) (h : childLookup l key = some c) :
    sizeOf c < sizeOf l := by
  induction l with
  | nil => simp [childLookup] at h
  | cons kc rest ih =>
    obtain ⟨k, c2⟩ := kc
    by_cases hk : k = key
    · simp [childLookup, hk] at h
      subst h
      simp
      omega
    · simp [childLookup, hk] at h
      have := ih h
      simp
      omega

theorem children_sizeOf (cat : MarkerCategory) :
    sizeOf cat.children < sizeOf cat := by
  cases cat with
  | mk n c d => simp [MarkerCategory.children]; omega

/-- `MarkerCategory::get_category_children` (gw2poi.rs): split the path at
the first dot, look the first segment up among the immediate children; if
the whole remaining path equals that child's name return it, else recurse
into the child with the rest.  Only children are searched. -/
def MarkerCategory.get_category_children (cat : MarkerCategory)
    (name : String) : Option MarkerCategory :=
  match h : childLookup cat.children (first_rest name).1 with
  | some child =>
    if name = child.name then some child
    else child.get_category_children (first_rest name).2
  | none => none
termination_by sizeOf cat
decreasing_by
  have h1 := childLookup_sizeOf _ _ _ h
  have h2 := children_sizeOf cat
  omega

/-!
### Inheritable attribute getters and setters (macro getter_setter_poi)

Each getter returns the POI's own field when present, otherwise asks the
bound parent category's flattened POI (which recurses up its own parent
chain), otherwise none.  Each setter writes only the POI's own field.
-/

/-- The parent link is a strict subterm of the POI value. -/
theorem parent_sizeOf (p : POI) (par : MarkerCategory)
    (h : p.parent = some par) : sizeOf par < sizeOf p := by
  cases p with
  | mk t pos d pr e =>
    simp [POI.parent] at h
    subst h
    simp
    omega

/-- A category's attribute holder is a strict subterm of the category. -/
theorem data_sizeOf (c : MarkerCategory) : sizeOf c.data < sizeOf c := by
  cases c with
  | mk n ch d =>
    simp [MarkerCategory.data]

/-- get_icon_file (generated by getter_setter_poi). -/
def POI.get_icon_file (p : POI) : Option String :=
  match p.data.icon_file with
  | some v => some v
  | none =>
    match h : p.parent with
    | some par => POI.get_icon_file par.data
    | none => none
termination_by sizeOf p
decreasing_by
  have h1 := parent_sizeOf p par h
  have h2 := data_sizeOf par
  omega

/-- set_icon_file (generated by getter_setter_poi). -/
def POI.set_icon_file : POI → Option String → POI
  | .mk t pos d p e, v => .mk t pos { d with icon_file := v } p e

/-- get_map_id (generated by getter_setter_poi). -/
def POI.get_map_id (p : POI) : Option Nat :=
  match p.data.map_id with
  | some v => some v
  | none =>
    match h : p.parent with
    | some par => POI.get_map_id par.data
    | none => none
termination_by sizeOf p
decreasing_by
  have h1 := parent_sizeOf p par h
  have h2 := data_sizeOf par
  omega

/-- set_map_id (generated by getter_setter_poi). -/
def POI.set_map_id : POI → Option Nat → POI
  | .mk t pos d p e, v => .mk t pos { d with map_id := v } p e

/-- get_display_name (generated by getter_setter_poi). -/
def POI.get_display_name (p : POI) : Option String :=
  match p.data.display_name with
  | some v => some v
  | none =>
    match h : p.parent with
    | some par => POI.get_display_name par.data
    | none => none
termination_by sizeOf p
decreasing_by
  have h1 := parent_sizeOf p par h
  have h2 := data_sizeOf par
  omega

/-- set_display_name (generated by getter_setter_poi). -/
def POI.set_display_name : POI → Option String → POI
  | .mk t pos d p e, v => .mk t pos { d with display_name := v } p e

/-- get_height_offset (generated by getter_setter_poi). -/
def POI.get_height_offset (p : POI) : Option F :=
  match p.data.height_offset with
  | some v => some v
  | none =>
    match h : p.parent with
    | some par => POI.get_height_offset par.data
    | none => none
termination_by sizeOf p
decreasing_by
  have h1 := parent_sizeOf p par h
  have h2 := data_sizeOf par
  omega

/-- set_height_offset (generated by getter_setter_poi). -/
def POI.set_height_offset : POI → Option F → POI
  | .mk t pos d p e, v => .mk t pos { d with height_offset := v } p e

/-!
### The parent resolution pass (OverlayData::fill_poi_parents)
-/

/-- The loop body of fill_poi_parents for one POI and one top-level
category root (overlay_data.rs): bind the root itself on full-name match;
else, on first-segment match, bind a found descendant; else leave the POI
unchanged. -/
def fill_step (poi : POI) (category : MarkerCategory) : POI :=
  match poi.poi_type with
  | some name =>
    if category.name = name then poi.set_parent (some category)
    else if category.name = (first_rest name).1 then
      match category.get_category_children (first_rest name).2 with
      | some cat => poi.set_parent (some cat)
      | none => poi
    else poi
  | none => poi

/-- The resolution pass for one POI: iterate over the top-level category
roots in declaration order, applying the loop body to each. -/
def fill_poi_parent (roots : List MarkerCategory) (poi : POI) : POI :=
  roots.foldl fill_step poi

/-- The successful match a single root produces for a dotted path, if any
(the value fill_step would bind). -/
def root_match (name : String) (category : MarkerCategory) :
    Option MarkerCategory :=
  if category.name = name then some category
  else if category.name = (first_rest name).1 then
    category.get_category_children (first_rest name).2
  else none

/-!
### C5: attribute getter contract and shadowing
-/

/-- C5: for each inheritable attribute (icon_file, map_id, display_name,
height_offset), the getter returns the POI's own value when present, else
the bound parent's getter result (which recurses up the parent chain), else
none; and the setter writes only the POI's own field, so setting the child
afterwards shadows the inherited value while the parent link (and hence the
parent's stored attributes) is unchanged. -/
theorem poi_attribute_inheritance (p : POI) :
    ((∀ v, p.data.icon_file = some v → p.get_icon_file = some v) ∧
     (∀ par, p.data.icon_file = none → p.parent = some par →
        p.get_icon_file = par.data.get_icon_file) ∧
     (p.data.icon_file = none → p.parent = none → p.get_icon_file = none) ∧
     (∀ v, (p.set_icon_file (some v)).get_icon_file = some v) ∧
     (∀ v, (p.set_icon_file v).parent = p.parent)) ∧
    ((∀ v, p.data.map_id = some v → p.get_map_id = some v) ∧
     (∀ par, p.data.map_id = none → p.parent = some par →
        p.get_map_id = par.data.get_map_id) ∧
     (p.data.map_id = none → p.parent = none → p.get_map_id = none) ∧
     (∀ v, (p.set_map_id (some v)).get_map_id = some v) ∧
     (∀ v, (p.set_map_id v).parent = p.parent)) ∧
    ((∀ v, p.data.display_name = some v → p.get_display_name = some v) ∧
     (∀ par, p.data.display_name = none → p.parent = some par →
        p.get_display_name = par.data.get_display_name) ∧
     (p.data.display_name = none → p.parent = none →
        p.get_display_name = none) ∧
     (∀ v, (p.set_display_name (some v)).get_display_name = some v) ∧
     (∀ v, (p.set_display_name v).parent = p.parent)) ∧
    ((∀ v, p.data.height_offset = some v → p.get_height_offset = some v) ∧
     (∀ par, p.data.height_offset = none → p.parent = some par →
        p.get_height_offset = par.data.get_height_offset) ∧
     (p.data.height_offset = none → p.parent = none →
        p.get_height_offset = none) ∧
     (∀ v, (p.set_height_offset (some v)).get_height_offset = some v) ∧
     (∀ v, (p.set_height_offset v).parent = p.parent)) := by
  obtain ⟨t, pos, d, pr, e⟩ := p
  refine ⟨⟨?_, ?_, ?_, ?_, ?_⟩, ⟨?_, ?_, ?_, ?_, ?_⟩,
          ⟨?_, ?_, ?_, ?_, ?_⟩, ⟨?_, ?_, ?_, ?_, ?_⟩⟩
  · intro v hv
    simp [POI.data] at hv
    rw [POI.get_icon_file]
    simp [POI.data, hv]
  · intro par hd hp
    simp [POI.data] at hd
    simp [POI.parent] at hp
    subst hp
    rw [POI.get_icon_file]
    simp [POI.data, POI.parent, hd]
  · intro hd hp
    simp [POI.data] at hd
    simp [POI.parent] at hp
    subst hp
    rw [POI.get_icon_file]
    simp [POI.data, POI.parent, hd]
  · intro v
    simp only [POI.set_icon_file]
    rw [POI.get_icon_file]
    simp [POI.data]
  · intro v
    simp [POI.set_icon_file, POI.parent]
  · intro v hv
    simp [POI.data] at hv
    rw [POI.get_map_id]
    simp [POI.data, hv]
  · intro par hd hp
    simp [POI.data] at hd
    simp [POI.parent] at hp
    subst hp
    rw [POI.get_map_id]
    simp [POI.data, POI.parent, hd]
  · intro hd hp
    simp [POI.data] at hd
    simp [POI.parent] at hp
    subst hp
    rw [POI.get_map_id]
    simp [POI.data, POI.parent, hd]
  · intro v
    simp only [POI.set_map_id]
    rw [POI.get_map_id]
    simp [POI.data]
  · intro v
    simp [POI.set_map_id, POI.parent]
  · intro v hv
    simp [POI.data] at hv
    rw [POI.get_display_name]
    simp [POI.data, hv]
  · intro par hd hp
    simp [POI.data] at hd
    simp [POI.parent] at hp
    subst hp
    rw [POI.get_display_name]
    simp [POI.data, POI.parent, hd]
  · intro hd hp
    simp [POI.data] at hd
    simp [POI.parent] at hp
    subst hp
    rw [POI.get_display_name]
    simp [POI.data, POI.parent, hd]
  · intro v
    simp only [POI.set_display_name]
    rw [POI.get_display_name]
    simp [POI.data]
  · intro v
    simp [POI.set_display_name, POI.parent]
  · intro v hv
    simp [POI.data] at hv
    rw [POI.get_height_offset]
    simp [POI.data, hv]
  · intro par hd hp
    simp [POI.data] at hd
    simp [POI.parent] at hp
    subst hp
    rw [POI.get_height_offset]
    simp [POI.data, POI.parent, hd]
  · intro hd hp
    simp [POI.data] at hd
    simp [POI.parent] at hp
    subst hp
    rw [POI.get_height_offset]
    simp [POI.data, POI.parent, hd]
  · intro v
    simp only [POI.set_height_offset]
    rw [POI.get_height_offset]
    simp [POI.data]
  · intro v
    simp [POI.set_height_offset, POI.parent]

/-- A parent category with its own icon_file and display_name, as in the
inherit_test fixture. -/
def parentCatW : MarkerCategory :=
  .mk "category2" []
    (.mk none Position.origin
      { emptyPOIData with
          icon_file := some "test_file", display_name := some "parent_name" }
      none false)

/-- A child POI with no own attributes, bound to parentCatW. -/
def childPoiW : POI :=
  .mk none Position.origin emptyPOIData (some parentCatW) false

/-- Witness for C5: the child inherits through the parent getter, and a
later own value shadows it without touching the parent link. -/
theorem poi_attribute_inheritance_witness :
    childPoiW.get_icon_file = parentCatW.data.get_icon_file ∧
    (childPoiW.set_display_name (some "child_name")).get_display_name =
      some "child_name" ∧
    (childPoiW.set_display_name (some "child_name")).parent =
      childPoiW.parent :=
  ⟨(poi_attribute_inheritance childPoiW).1.2.1 parentCatW rfl rfl,
   (poi_attribute_inheritance childPoiW).2.2.1.2.2.2.1 "child_name",
   (poi_attribute_inheritance childPoiW).2.2.1.2.2.2.2 (some "child_name")⟩

/-!
### C1: which of several matching roots binds the parent
-/

theorem set_parent_poi_type (p : POI) (x : Option MarkerCategory) :
    (p.set_parent x).poi_type = p.poi_type := by
  cases p
  rfl

theorem set_parent_parent (p : POI) (x : Option MarkerCategory) :
    (p.set_parent x).parent = x := by
  cases p
  rfl

theorem fill_step_poi_type (poi : POI) (c : MarkerCategory) :
    (fill_step poi c).poi_type = poi.poi_type := by
  unfold fill_step
  cases hpt : poi.poi_type with
  | none => exact hpt
  | some name =>
    dsimp only
    by_cases h1 : c.name = name
    · rw [if_pos h1]
      simp [set_parent_poi_type, hpt]
    · by_cases h2 : c.name = (first_rest name).1
      · rw [if_neg h1, if_pos h2]
        cases hg : c.get_category_children (first_rest name).2 <;>
          simp [set_parent_poi_type, hpt]
      · rw [if_neg h1, if_neg h2]
        exact hpt

theorem fill_step_parent (poi : POI) (c : MarkerCategory) (name : String)
    (h : poi.poi_type = some name) :
    (fill_step poi c).parent = (root_match name c).elim poi.parent some := by
  unfold fill_step root_match
  rw [h]
  dsimp only
  by_cases h1 : c.name = name
  · rw [if_pos h1, if_pos h1]
    simp [set_parent_parent]
  · by_cases h2 : c.name = (first_rest name).1
    · rw [if_neg h1, if_neg h1, if_pos h2, if_pos h2]
      cases hg : c.get_category_children (first_rest name).2 <;>
        simp [set_parent_parent]
    · rw [if_neg h1, if_neg h1, if_neg h2, if_neg h2]
      simp

theorem getLast?_cons_elim {α : Type} (b : α) (xs : List α) :
    (b :: xs).getLast? = (xs.getLast?).elim (some b) some := by
  cases xs with
  | nil => rfl
  | cons x t =>
    rw [List.getLast?_cons_cons]
    cases h : (x :: t).getLast? with
    | none =>
      have hs : (x :: t).getLast?.isSome := by
        rw [List.getLast?_isSome]
        simp
      rw [h] at hs
      simp at hs
    | some y => rfl

/-- C1 corrected: when several top-level roots match a POI's type path, the
LAST matching root in declaration order binds the parent (every matching
root overwrites the previous binding, and the iteration never stops early);
when no root matches, the prior parent is kept. -/
theorem fill_poi_parents_last_match (roots : List MarkerCategory) (poi : POI)
    (name : String) (h : poi.poi_type = some name) :
    (fill_poi_parent roots poi).parent =
      ((roots.filterMap (root_match name)).getLast?).elim poi.parent some := by
  induction roots generalizing poi with
  | nil => simp [fill_poi_parent]
  | cons c rest ih =>
    have hpt : (fill_step poi c).poi_type = some name := by
      rw [fill_step_poi_type, h]
    have hpar := fill_step_parent poi c name h
    have ihc := ih (fill_step poi c) hpt
    unfold fill_poi_parent at ihc ⊢
    rw [List.foldl_cons, ihc, hpar, List.filterMap_cons]
    cases hg : root_match name c with
    | none => simp
    | some b =>
      rw [getLast?_cons_elim]
      cases hlast : (rest.filterMap (root_match name)).getLast? <;> simp

/-- A top-level root named X whose display_name is "one". -/
def rootX1 : MarkerCategory :=
  .mk "X" []
    (.mk none Position.origin
      { emptyPOIData with display_name := some "one" } none false)

/-- A second top-level root, also named X, whose display_name is "two". -/
def rootX2 : MarkerCategory :=
  .mk "X" []
    (.mk none Position.origin
      { emptyPOIData with display_name := some "two" } none false)

/-- A POI whose type path is X, matched by both roots. -/
def poiX : POI := .mk (some "X") Position.origin emptyPOIData none false

/-- Counterexample to C1 as stated: with two declared roots both matching
the path X, the resolution pass binds the SECOND root, not the first. -/
theorem fill_first_match_counterexample :
    (fill_poi_parent [rootX1, rootX2] poiX).parent = some rootX2 ∧
    (fill_poi_parent [rootX1, rootX2] poiX).parent ≠ some rootX1 := by
  have hres : (fill_poi_parent [rootX1, rootX2] poiX).parent = some rootX2 := by
    rfl
  refine ⟨hres, ?_⟩
  rw [hres]
  intro hc
  have h2 : rootX2 = rootX1 := Option.some.inj hc
  simp [rootX1, rootX2] at h2

/-- Witness for the corrected C1 at the two ambiguous roots. -/
theorem fill_poi_parents_last_match_witness :
    (fill_poi_parent [rootX1, rootX2] poiX).parent =
      (([rootX1, rootX2].filterMap (root_match "X")).getLast?).elim
        poiX.parent some :=
  fill_poi_parents_last_match [rootX1, rootX2] poiX "X" rfl

/-!
### C6: dotted-path descendant resolution
-/

/-- Category C, leaf of the A - B - C chain. -/
def catC6C : MarkerCategory :=
  .mk "C" [] (.mk none Position.origin emptyPOIData none false)

/-- Category B with child C. -/
def catC6B : MarkerCategory :=
  .mk "B" [("C", catC6C)] (.mk none Position.origin emptyPOIData none false)

/-- Root category A with child B. -/
def catC6A : MarkerCategory :=
  .mk "A" [("B", catC6B)] (.mk none Position.origin emptyPOIData none false)

/-- A POI whose type path is A.B.C. -/
def poiABC : POI := .mk (some "A.B.C") Position.origin emptyPOIData none false

/-- A POI whose type path is A.B.X, where B has no child X. -/
def poiABX : POI := .mk (some "A.B.X") Position.origin emptyPOIData none false

/-- C6: against the root A with child B with child C, the resolution pass
binds a POI typed A.B.C to node C, leaves a POI typed A.B.X parentless, and
descendant lookup returns none whenever the first path segment is not the
name key of an immediate child. -/
theorem dotted_path_resolution :
    (fill_poi_parent [catC6A] poiABC).parent = some catC6C ∧
    (fill_poi_parent [catC6A] poiABX).parent = none ∧
    ∀ (cat : MarkerCategory) (nm : String),
      childLookup cat.children (first_rest nm).1 = none →
      cat.get_category_children nm = none := by
  have hgc : catC6A.get_category_children "B.C" = some catC6C := by
    simp [MarkerCategory.get_category_children, catC6A, catC6B, catC6C,
      childLookup, first_rest, split_once_dot, splitOnceAux,
      MarkerCategory.children, MarkerCategory.name]
  have hgx : catC6A.get_category_children "B.X" = none := by
    simp [MarkerCategory.get_category_children, catC6A, catC6B, catC6C,
      childLookup, first_rest, split_once_dot, splitOnceAux,
      MarkerCategory.children, MarkerCategory.name]
  have hname : catC6A.name = "A" := rfl
  refine ⟨?_, ?_, ?_⟩
  · simp [fill_poi_parent, fill_step, poiABC, POI.poi_type, hname, hgc,
      first_rest, split_once_dot, splitOnceAux, set_parent_parent,
      POI.set_parent, POI.parent]
  · simp [fill_poi_parent, fill_step, poiABX, POI.poi_type, hname, hgx,
      first_rest, split_once_dot, splitOnceAux, POI.parent]
  · intro cat nm h
    rw [MarkerCategory.get_category_children]
    split
    · next child heq =>
        rw [h] at heq
        exact absurd heq (by simp)
    · rfl

/-- Witness for C6 at a path whose first segment is missing under A. -/
theorem dotted_path_resolution_witness :
    catC6A.get_category_children "Z" = none :=
  dotted_path_resolution.2.2 catC6A "Z" rfl
